import Mathlib

/-!
# Verification of the `b2c-plugin-password-store` configuration plugin

Shallow embedding of the plugin's sources:

* `src/sources/pass.ts` — the `pass` CLI wrapper: `isPassAvailable`,
  `getEntry`, `parsePassEntry`, `getConfigFromPass`, `escapeShellArg`;
* `src/sources/pass-source.ts` — `PassSource.load`, `loadEntry`,
  `loadMrtConfig`, `mapToNormalizedConfig`;
* the second (unnamed) copy of the `pass` wrapper, whose `parsePassEntry`
  differs from the one in `src/sources/pass.ts`.

JavaScript strings are modelled by `String` (operated on as `List Char`),
JavaScript objects with string values by insertion-ordered association
lists, the external shell by a function from command strings to an exit
outcome, and `process.env` by a function from variable names to
`Option String`.  Exceptions thrown by `execSync` / `new URL` are modelled
as `failure` / `none` results, matching the `try`/`catch` blocks in the
source that convert them to `undefined`.
-/

/-- Whitespace as trimmed by JavaScript `String.prototype.trim`
(the characters that occur in practice: ASCII blanks, NBSP, BOM). -/
def jsWhitespace (c : Char) : Bool :=
  c = ' ' || c = '\t' || c = '\n' || c = '\r' ||
  c = '\x0b' || c = '\x0c' || c = ' ' || c = '﻿'

/-- `cs` with leading and trailing JS whitespace removed. -/
def trimChars (cs : List Char) : List Char :=
  ((cs.dropWhile jsWhitespace).reverse.dropWhile jsWhitespace).reverse

/-- JavaScript `s.trim()`. -/
def jsTrim (s : String) : String :=
  String.mk (trimChars s.toList)

/-- JavaScript `s.split(sep)` for a single-character separator:
always returns at least one (possibly empty) piece. -/
def splitOnChar (sep : Char) : List Char → List (List Char)
  | [] => [[]]
  | c :: rest =>
    let r := splitOnChar sep rest
    if c = sep then [] :: r
    else
      match r with
      | h :: t => (c :: h) :: t
      | [] => [[c]]

/-- JavaScript `content.split('\n')`. -/
def jsSplitLines (s : String) : List String :=
  (splitOnChar '\n' s.toList).map String.mk

/-- Split a line at its first `':'`, returning the characters before and
after it; `none` when there is no colon.  Used to model
`trimmed.indexOf(':')` together with the two `slice` calls. -/
def colonSplit : List Char → Option (List Char × List Char)
  | [] => none
  | c :: rest =>
    if c = ':' then some ([], rest)
    else
      match colonSplit rest with
      | some (pre, post) => some (c :: pre, post)
      | none => none

/-- The `key: value` parsing step shared by both copies of
`parsePassEntry`: succeeds exactly when `trimmed.indexOf(':') > 0` and the
trimmed key and value are both non-empty. -/
def parseKVLine (trimmed : String) : Option (String × String) :=
  match trimmed.toList with
  | [] => none
  | c :: rest =>
    if c = ':' then none  -- colonIndex = 0 fails the `> 0` test
    else
      match colonSplit (c :: rest) with
      | none => none
      | some (pre, post) =>
        let key := String.mk (trimChars pre)
        let value := String.mk (trimChars post)
        if key ≠ "" && value ≠ "" then some (key, value) else none

/-- A JavaScript object with string keys and string values, as an
insertion-ordered association list (JS objects keep first-insertion
order; assigning an existing key updates in place). -/
abbrev Obj : Type := List (String × String)

/-- JS property assignment `o[k] = v`. -/
def objSet (o : Obj) (k v : String) : Obj :=
  if o.any (fun p => p.1 = k) then
    o.map (fun p => if p.1 = k then (k, v) else p)
  else
    o ++ [(k, v)]

/-- JS property read `o[k]` (`none` = `undefined`). -/
def objGet (o : Obj) (k : String) : Option String :=
  (o.find? (fun p => p.1 = k)).map (fun p => p.2)

/-- The loop body of `parsePassEntry` in `src/sources/pass.ts`:
`foundPassword` tracks whether the first non-empty line has been seen. -/
def parsePassLoop : List String → Bool → Obj → Obj
  | [], _, result => result
  | line :: rest, foundPassword, result =>
    let trimmed := jsTrim line
    if !foundPassword then
      if trimmed ≠ "" then
        parsePassLoop rest true (objSet result "_password" trimmed)
      else
        parsePassLoop rest false result
    else
      match parseKVLine trimmed with
      | some kv => parsePassLoop rest true (objSet result kv.1 kv.2)
      | none => parsePassLoop rest foundPassword result

/-- `parsePassEntry` from `src/sources/pass.ts`: the first **non-empty**
line (after trimming) becomes `_password`; lines after it of the shape
`key: value` become pairs. -/
def parsePassEntry (content : String) : Obj :=
  parsePassLoop (jsSplitLines content) false []

/-- The `key: value` fold of the unnamed copy of `parsePassEntry`
(lines 147–159 of the unnamed source): skips blank lines, parses the
rest. -/
def parsePassAltStep (result : Obj) (line : String) : Obj :=
  let trimmed := jsTrim line
  if trimmed = "" then result
  else
    match parseKVLine trimmed with
    | some kv => objSet result kv.1 kv.2
    | none => result

/-- `parsePassEntry` from the unnamed source file: only line 0 can be the
password (when non-empty after trimming); every later non-blank line is
parsed as `key: value`. -/
def parsePassEntryAlt (content : String) : Obj :=
  let lines := jsSplitLines content
  let base : Obj :=
    match lines with
    | [] => ([] : Obj)
    | first :: _ =>
      let t := jsTrim first
      if t ≠ "" then objSet ([] : Obj) "_password" t else ([] : Obj)
  (lines.drop 1).foldl parsePassAltStep base

/-- `escapeShellArg` from `src/sources/pass.ts`:
`arg.replace(/'/g, "'\\''")`. -/
def escapeShellArg (arg : String) : String :=
  String.mk (arg.toList.flatMap
    (fun c => if c = '\'' then ['\'', '\\', '\'', '\''] else [c]))

example : parsePassEntry "my-api-key\nusername: user@example.com" =
    [("_password", "my-api-key"), ("username", "user@example.com")] := by
  decide

example : parsePassEntry "\nfoo: bar" = [("_password", "foo: bar")] := by
  decide

example : parsePassEntryAlt "\nfoo: bar" = [("foo", "bar")] := by
  decide

example : escapeShellArg "a'b" = "a'\\''b" := by decide

/-! ## The configuration layer (`src/sources/pass-source.ts`) -/

/-- `NormalizedConfig` from `src/types.ts`: every field optional;
a `none` field models an absent JS property. -/
structure NormalizedConfig where
  username : Option String := none
  password : Option String := none
  hostname : Option String := none
  webdavHostname : Option String := none
  codeVersion : Option String := none
  clientId : Option String := none
  clientSecret : Option String := none
  scopes : Option (List String) := none
  shortCode : Option String := none
  accountManagerHost : Option String := none
  mrtProject : Option String := none
  mrtEnvironment : Option String := none
  mrtApiKey : Option String := none
  mrtOrigin : Option String := none
deriving Repr, DecidableEq

/-- `ResolveConfigOptions` from `src/types.ts` (the fields `PassSource`
reads; `instance` is renamed `instanceName` because `instance` is a Lean
keyword). -/
structure ResolveConfigOptions where
  instanceName : Option String := none
  cloudOrigin : Option String := none
  accountManagerHost : Option String := none
deriving Repr, DecidableEq

/-- `ConfigLoadResult` from `src/types.ts`. -/
structure ConfigLoadResult where
  config : NormalizedConfig
  location : String
deriving Repr, DecidableEq

/-- Outcome of one `execSync` call: captured stdout, or a thrown error
(non-zero exit). -/
inductive ExecResult where
  | success (output : String)
  | failure
deriving Repr, DecidableEq

/-- The external shell: what `execSync cmd` returns for each command
string. -/
abbrev World : Type := String → ExecResult

/-- `process.env`: `none` models an unset variable. -/
abbrev Env : Type := String → Option String

/-- JS truthiness for an optional string: `undefined` and `""` are
falsy. -/
def truthy (o : Option String) : Option String :=
  match o with
  | some s => if s = "" then none else some s
  | none => none

/-- JavaScript `a.toLowerCase()` (ASCII range, which covers every key in
`FIELD_MAP`). -/
def jsToLower (s : String) : String :=
  String.mk (s.toList.map Char.toLower)

/-- `value.split(',').map(s => s.trim()).filter(Boolean)` — the
comma-separated `scopes` parsing. -/
def parseScopes (value : String) : List String :=
  (((splitOnChar ',' value.toList).map
    (fun cs => String.mk (trimChars cs))).filter (fun s => s ≠ ""))

/-- One assignment through `FIELD_MAP` (keys already lowercased);
unknown keys assign nothing. -/
def setConfigField (c : NormalizedConfig) (key value : String) :
    NormalizedConfig :=
  if key = "username" then { c with username := some value }
  else if key = "password" then { c with password := some value }
  else if key = "hostname" then { c with hostname := some value }
  else if key = "webdav-hostname" then { c with webdavHostname := some value }
  else if key = "code-version" then { c with codeVersion := some value }
  else if key = "client-id" then { c with clientId := some value }
  else if key = "client-secret" then { c with clientSecret := some value }
  else if key = "scopes" then { c with scopes := some (parseScopes value) }
  else if key = "short-code" then { c with shortCode := some value }
  else if key = "account-manager-host" then
    { c with accountManagerHost := some value }
  else if key = "mrt-project" then { c with mrtProject := some value }
  else if key = "mrt-environment" then { c with mrtEnvironment := some value }
  else if key = "mrt-api-key" then { c with mrtApiKey := some value }
  else if key = "mrt-origin" then { c with mrtOrigin := some value }
  else c

/-- `PassSource.mapToNormalizedConfig`: `_password` (when truthy) becomes
`password`, then every other entry is mapped through `FIELD_MAP`
case-insensitively, in the object's insertion order. -/
def mapToNormalizedConfig (entry : Obj) : NormalizedConfig :=
  let c0 : NormalizedConfig :=
    match truthy (objGet entry "_password") with
    | some p => { password := some p }
    | none => {}
  entry.foldl
    (fun c kv =>
      if kv.1 = "_password" then c
      else setConfigField c (jsToLower kv.1) kv.2)
    c0

/-- JS spread override for one field: `{...a, ...b}` keeps `b`'s property
when `b` has it, else `a`'s. -/
def jsOr {α : Type} (a b : Option α) : Option α :=
  match b with
  | some v => some v
  | none => a

/-- `{...a, ...b}` on `NormalizedConfig` values. -/
def mergeConfig (a b : NormalizedConfig) : NormalizedConfig where
  username := jsOr a.username b.username
  password := jsOr a.password b.password
  hostname := jsOr a.hostname b.hostname
  webdavHostname := jsOr a.webdavHostname b.webdavHostname
  codeVersion := jsOr a.codeVersion b.codeVersion
  clientId := jsOr a.clientId b.clientId
  clientSecret := jsOr a.clientSecret b.clientSecret
  scopes := jsOr a.scopes b.scopes
  shortCode := jsOr a.shortCode b.shortCode
  accountManagerHost := jsOr a.accountManagerHost b.accountManagerHost
  mrtProject := jsOr a.mrtProject b.mrtProject
  mrtEnvironment := jsOr a.mrtEnvironment b.mrtEnvironment
  mrtApiKey := jsOr a.mrtApiKey b.mrtApiKey
  mrtOrigin := jsOr a.mrtOrigin b.mrtOrigin

/-- Spreading an optional object: `{...a, ...b}` where `b` may be
`undefined` (spreading `undefined` adds nothing). -/
def spreadOpt (a : NormalizedConfig) (b : Option NormalizedConfig) :
    NormalizedConfig :=
  match b with
  | some c => mergeConfig a c
  | none => a

/-- The command string `getEntry` hands to `execSync`:
`` `pass show '${escapeShellArg(path)}'` ``. -/
def passShowCmd (path : String) : String :=
  "pass show '" ++ escapeShellArg path ++ "'"

/-- `isPassAvailable`: `execSync('which pass')` succeeding. -/
def isPassAvailable (w : World) : Bool :=
  match w "which pass" with
  | .success _ => true
  | .failure => false

/-- `getEntry`: runs `pass show` on the escaped path; a thrown error
(entry not found) is caught and becomes `none`. -/
def getEntry (w : World) (path : String) : Option String :=
  match w (passShowCmd path) with
  | .success out => some out
  | .failure => none

/-- `getConfigFromPass`: `undefined` when the entry is missing **or** its
content is the empty string (`if (!content)`). -/
def getConfigFromPass (w : World) (path : String) : Option Obj :=
  match getEntry w path with
  | none => none
  | some content => if content = "" then none else some (parsePassEntry content)

/-- `PassSource.loadEntry`, instrumented: result config, the updated
`locationParts`, and the external commands issued (always exactly the one
`pass show`). -/
def loadEntry (w : World) (path : String) (parts : List String) :
    Option NormalizedConfig × List String × List String :=
  match getConfigFromPass w path with
  | some entry =>
    (some (mapToNormalizedConfig entry), parts ++ ["pass:" ++ path],
      [passShowCmd path])
  | none => (none, parts, [passShowCmd path])

/-- `DEFAULT_PREFIX`. -/
def defaultPrefixStr : String := "b2c-cli"

/-- `DEFAULT_ENTRY`. -/
def defaultEntry : String := "_default"

/-- `MOBIFY_ENTRY`. -/
def mobifyEntry : String := "_mobify"

/-- `this.prefix` as set in the `PassSource` constructor:
`process.env.SFCC_PASS_PREFIX ?? DEFAULT_PREFIX` (nullish coalescing:
a set-but-empty variable is kept). -/
def passPrefix (env : Env) : String :=
  (env "SFCC_PASS_PREFIX").getD defaultPrefixStr

/-- The path `` `${this.prefix}/${DEFAULT_ENTRY}` ``. -/
def basePathOf (env : Env) : String :=
  passPrefix env ++ "/" ++ defaultEntry

/-- The path `` `${this.prefix}/${DEFAULT_ENTRY}/${accountManagerHost}` ``. -/
def hostPathOf (env : Env) (h : String) : String :=
  passPrefix env ++ "/" ++ defaultEntry ++ "/" ++ h

/-- The path `` `${this.prefix}/${instance}` ``. -/
def instPathOf (env : Env) (i : String) : String :=
  passPrefix env ++ "/" ++ i

/-- The path `` `${this.prefix}/${MOBIFY_ENTRY}` ``. -/
def mobifyBasePathOf (env : Env) : String :=
  passPrefix env ++ "/" ++ mobifyEntry

/-- The path `` `${this.prefix}/${MOBIFY_ENTRY}/${hostname}` ``. -/
def mobifyHostPathOf (env : Env) (h : String) : String :=
  passPrefix env ++ "/" ++ mobifyEntry ++ "/" ++ h

/-- `PassSource.loadMrtConfig`, instrumented like `loadEntry`.  `url`
models the runtime's `new URL(·).hostname`, with `none` for a thrown
`TypeError` (the `catch` skips the host-specific lookup). -/
def loadMrtConfig (url : String → Option String) (env : Env) (w : World)
    (options : ResolveConfigOptions) (parts : List String) :
    Option NormalizedConfig × List String × List String :=
  match truthy options.cloudOrigin with
  | some origin =>
    match url origin with
    | some host =>
      let r := loadEntry w (mobifyHostPathOf env host) parts
      match r.1 with
      | some c => (some c, r.2.1, r.2.2)
      | none =>
        let r2 := loadEntry w (mobifyBasePathOf env) r.2.1
        (r2.1, r2.2.1, r.2.2 ++ r2.2.2)
    | none => loadEntry w (mobifyBasePathOf env) parts
  | none => loadEntry w (mobifyBasePathOf env) parts

/-- `PassSource.load`, instrumented: the `ConfigLoadResult | undefined`
it returns, paired with the full list of external commands issued, in
order. -/
def load (url : String → Option String) (env : Env) (w : World)
    (options : ResolveConfigOptions) :
    Option ConfigLoadResult × List String :=
  if !isPassAvailable w then (none, ["which pass"])
  else
    let (baseDefault, parts1, tr1) :=
      loadEntry w (basePathOf env) []
    let (hostDefault, parts2, tr2) :=
      match truthy options.accountManagerHost with
      | some h => loadEntry w (hostPathOf env h) parts1
      | none => ((none : Option NormalizedConfig), parts1, ([] : List String))
    let instV := options.instanceName <|> env "SFCC_PASS_INSTANCE"
    let (instanceConfig, parts3, tr3) :=
      match truthy instV with
      | some i => loadEntry w (instPathOf env i) parts2
      | none => ((none : Option NormalizedConfig), parts2, ([] : List String))
    let (mrtConfig, parts4, tr4) := loadMrtConfig url env w options parts3
    let trace := "which pass" :: (tr1 ++ tr2 ++ tr3 ++ tr4)
    if parts4 = [] then (none, trace)
    else
      (some
        { config :=
            spreadOpt
              (spreadOpt (spreadOpt (spreadOpt {} baseDefault) hostDefault)
                mrtConfig)
              instanceConfig,
          location := String.intercalate "," parts4 },
        trace)

/-! ## Derived views of `load` (the entries it probes and finds) -/

/-- The parsed-and-mapped config of one entry, `none` when the entry is
missing or empty. -/
def entryCfg (w : World) (path : String) : Option NormalizedConfig :=
  (getConfigFromPass w path).map mapToNormalizedConfig

/-- The `_default` contribution. -/
def baseCfg (env : Env) (w : World) : Option NormalizedConfig :=
  entryCfg w (basePathOf env)

/-- The host-specific `_default` contribution (only probed for a truthy
`accountManagerHost`). -/
def hostCfg (env : Env) (w : World) (options : ResolveConfigOptions) :
    Option NormalizedConfig :=
  match truthy options.accountManagerHost with
  | some h => entryCfg w (hostPathOf env h)
  | none => none

/-- The instance contribution (instance from the option, falling back to
`SFCC_PASS_INSTANCE`). -/
def instCfg (env : Env) (w : World) (options : ResolveConfigOptions) :
    Option NormalizedConfig :=
  match truthy (options.instanceName <|> env "SFCC_PASS_INSTANCE") with
  | some i => entryCfg w (instPathOf env i)
  | none => none

/-- The MRT (`_mobify`) contribution: the cloud-origin-specific entry if
it exists, else the base entry. -/
def mrtCfg (url : String → Option String) (env : Env) (w : World)
    (options : ResolveConfigOptions) : Option NormalizedConfig :=
  match truthy options.cloudOrigin with
  | some origin =>
    match url origin with
    | some h =>
      (match entryCfg w (mobifyHostPathOf env h) with
       | some c => some c
       | none => entryCfg w (mobifyBasePathOf env))
    | none => entryCfg w (mobifyBasePathOf env)
  | none => entryCfg w (mobifyBasePathOf env)

/-- `[path]` when the entry was found, `[]` otherwise. -/
def foundOpt (c : Option NormalizedConfig) (path : String) : List String :=
  match c with
  | some _ => [path]
  | none => []

/-- The `pass:`-tagged location parts for a list of found paths. -/
def tagParts (l : List String) : List String :=
  l.map (fun p => "pass:" ++ p)

/-- Found path of the host-specific `_default` probe. -/
def hostFound (env : Env) (w : World) (options : ResolveConfigOptions) :
    List String :=
  match truthy options.accountManagerHost with
  | some h => foundOpt (entryCfg w (hostPathOf env h)) (hostPathOf env h)
  | none => []

/-- Found path of the instance probe. -/
def instFound (env : Env) (w : World) (options : ResolveConfigOptions) :
    List String :=
  match truthy (options.instanceName <|> env "SFCC_PASS_INSTANCE") with
  | some i => foundOpt (entryCfg w (instPathOf env i)) (instPathOf env i)
  | none => []

/-- Found paths of the `_mobify` probes. -/
def mrtFound (url : String → Option String) (env : Env) (w : World)
    (options : ResolveConfigOptions) : List String :=
  match truthy options.cloudOrigin with
  | some origin =>
    match url origin with
    | some h =>
      (match entryCfg w (mobifyHostPathOf env h) with
       | some _ => [mobifyHostPathOf env h]
       | none =>
         foundOpt (entryCfg w (mobifyBasePathOf env)) (mobifyBasePathOf env))
    | none =>
      foundOpt (entryCfg w (mobifyBasePathOf env)) (mobifyBasePathOf env)
  | none =>
    foundOpt (entryCfg w (mobifyBasePathOf env)) (mobifyBasePathOf env)

/-- All probed entries that were found, in probe order
(`_default`, host `_default`, instance, `_mobify`). -/
def foundPaths (url : String → Option String) (env : Env) (w : World)
    (options : ResolveConfigOptions) : List String :=
  foundOpt (baseCfg env w) (basePathOf env) ++ hostFound env w options ++
    instFound env w options ++ mrtFound url env w options

/-- Commands issued by `loadMrtConfig`. -/
def mrtTrace (url : String → Option String) (env : Env) (w : World)
    (options : ResolveConfigOptions) : List String :=
  match truthy options.cloudOrigin with
  | some origin =>
    match url origin with
    | some h =>
      passShowCmd (mobifyHostPathOf env h) ::
        (match entryCfg w (mobifyHostPathOf env h) with
         | some _ => []
         | none => [passShowCmd (mobifyBasePathOf env)])
    | none => [passShowCmd (mobifyBasePathOf env)]
  | none => [passShowCmd (mobifyBasePathOf env)]

/-- All commands issued by one `load` call, in order. -/
def loadTrace (url : String → Option String) (env : Env) (w : World)
    (options : ResolveConfigOptions) : List String :=
  if isPassAvailable w then
    "which pass" ::
      ([passShowCmd (basePathOf env)] ++
        (match truthy options.accountManagerHost with
         | some h => [passShowCmd (hostPathOf env h)]
         | none => []) ++
        (match truthy (options.instanceName <|> env "SFCC_PASS_INSTANCE") with
         | some i => [passShowCmd (instPathOf env i)]
         | none => []) ++
        mrtTrace url env w options)
  else ["which pass"]

/-- The merged config: `{...base, ...host, ...mrt, ...instance}`. -/
def mergedCfg (url : String → Option String) (env : Env) (w : World)
    (options : ResolveConfigOptions) : NormalizedConfig :=
  spreadOpt
    (spreadOpt (spreadOpt (spreadOpt {} (baseCfg env w)) (hostCfg env w options))
      (mrtCfg url env w options))
    (instCfg env w options)

lemma tagParts_append (a b : List String) :
    tagParts (a ++ b) = tagParts a ++ tagParts b := by
  simp [tagParts]

lemma tagParts_nil : tagParts [] = [] := rfl

lemma tagParts_eq_nil (l : List String) : tagParts l = [] ↔ l = [] := by
  simp [tagParts]

lemma loadEntry_eq (w : World) (path : String) (parts : List String) :
    loadEntry w path parts =
      (entryCfg w path, parts ++ tagParts (foundOpt (entryCfg w path) path),
        [passShowCmd path]) := by
  unfold loadEntry entryCfg foundOpt tagParts
  cases getConfigFromPass w path <;> simp

lemma loadMrtConfig_eq (url : String → Option String) (env : Env) (w : World)
    (options : ResolveConfigOptions) (parts : List String) :
    loadMrtConfig url env w options parts =
      (mrtCfg url env w options,
        parts ++ tagParts (mrtFound url env w options),
        mrtTrace url env w options) := by
  unfold loadMrtConfig mrtCfg mrtFound mrtTrace
  rcases hco : truthy options.cloudOrigin with _ | origin
  · simp [loadEntry_eq]
  · rcases hurl : url origin with _ | h
    · simp [hurl, loadEntry_eq]
    · simp only [hurl, loadEntry_eq]
      rcases hhost : entryCfg w (mobifyHostPathOf env h) with _ | c
      · simp [hhost, loadEntry_eq, foundOpt, tagParts]
      · simp [hhost, foundOpt, tagParts]

lemma load_eq (url : String → Option String) (env : Env) (w : World)
    (options : ResolveConfigOptions) :
    load url env w options =
      (if isPassAvailable w then
         if foundPaths url env w options = [] then none
         else
           some
             { config := mergedCfg url env w options,
               location :=
                 String.intercalate ","
                   (tagParts (foundPaths url env w options)) }
       else none,
       loadTrace url env w options) := by
  unfold load loadTrace foundPaths mergedCfg baseCfg hostCfg instCfg
    hostFound instFound
  rcases hav : isPassAvailable w with _ | _
  · simp
  · simp only [Bool.not_true, Bool.false_eq_true, if_false, if_true,
      loadEntry_eq, loadMrtConfig_eq, tagParts_append, tagParts_nil]
    rcases hamh : truthy options.accountManagerHost with _ | h <;>
      rcases hinst : truthy (options.instanceName <|> env "SFCC_PASS_INSTANCE")
        with _ | i <;>
      · simp only [tagParts_append, tagParts_nil, List.nil_append,
          List.append_assoc]
        split <;> rename_i hc <;>
          simp only [List.append_eq_nil, tagParts_eq_nil] at hc <;> simp [hc]

/-! ## Field-level view of `NormalizedConfig` -/

/-- The fourteen configuration fields. -/
inductive CField where
  | username | password | hostname | webdavHostname | codeVersion
  | clientId | clientSecret | scopes | shortCode | accountManagerHost
  | mrtProject | mrtEnvironment | mrtApiKey | mrtOrigin
deriving Repr, DecidableEq

/-- A field value (string, or list of strings for `scopes`). -/
inductive FieldVal where
  | str (s : String)
  | strs (l : List String)
deriving Repr, DecidableEq

/-- Read one field of a `NormalizedConfig`; `none` = the JS property is
absent. -/
def getField (c : NormalizedConfig) : CField → Option FieldVal
  | CField.username => c.username.map FieldVal.str
  | CField.password => c.password.map FieldVal.str
  | CField.hostname => c.hostname.map FieldVal.str
  | CField.webdavHostname => c.webdavHostname.map FieldVal.str
  | CField.codeVersion => c.codeVersion.map FieldVal.str
  | CField.clientId => c.clientId.map FieldVal.str
  | CField.clientSecret => c.clientSecret.map FieldVal.str
  | CField.scopes => c.scopes.map FieldVal.strs
  | CField.shortCode => c.shortCode.map FieldVal.str
  | CField.accountManagerHost => c.accountManagerHost.map FieldVal.str
  | CField.mrtProject => c.mrtProject.map FieldVal.str
  | CField.mrtEnvironment => c.mrtEnvironment.map FieldVal.str
  | CField.mrtApiKey => c.mrtApiKey.map FieldVal.str
  | CField.mrtOrigin => c.mrtOrigin.map FieldVal.str

/-- Read one field of an entry's contribution; `none` when the entry was
not found or does not set the field. -/
def fieldOf (o : Option NormalizedConfig) (f : CField) : Option FieldVal :=
  match o with
  | some c => getField c f
  | none => none

lemma jsOr_map {α β : Type} (g : α → β) (a b : Option α) :
    (jsOr a b).map g = jsOr (a.map g) (b.map g) := by
  cases b <;> rfl

lemma jsOr_none_left {α : Type} (b : Option α) : jsOr none b = b := by
  cases b <;> rfl

lemma getField_empty (f : CField) : getField {} f = none := by
  cases f <;> rfl

lemma getField_mergeConfig (a b : NormalizedConfig) (f : CField) :
    getField (mergeConfig a b) f = jsOr (getField a f) (getField b f) := by
  cases f <;> simp only [getField, mergeConfig, jsOr_map]

lemma getField_spreadOpt (a : NormalizedConfig) (ob : Option NormalizedConfig)
    (f : CField) :
    getField (spreadOpt a ob) f = jsOr (getField a f) (fieldOf ob f) := by
  cases ob with
  | none => rfl
  | some c => simp only [spreadOpt, fieldOf, getField_mergeConfig]

lemma getField_mergedCfg (url : String → Option String) (env : Env)
    (w : World) (options : ResolveConfigOptions) (f : CField) :
    getField (mergedCfg url env w options) f =
      jsOr
        (jsOr
          (jsOr (fieldOf (baseCfg env w) f) (fieldOf (hostCfg env w options) f))
          (fieldOf (mrtCfg url env w options) f))
        (fieldOf (instCfg env w options) f) := by
  unfold mergedCfg
  rw [getField_spreadOpt, getField_spreadOpt, getField_spreadOpt,
    getField_spreadOpt, getField_empty, jsOr_none_left]

/-! ## Claim C1 -/

/-- **C1.** For every options value and password-store state,
`PassSource.load` merges the entries it finds by fixed-precedence
field-level overlay in the order `_default`, then
`_default/<accountManagerHost>`, then the `_mobify` (MRT) entry, then the
instance entry: for each configuration field the merged result holds the
value of the latest entry in this order that sets the field (so the
instance entry overrides all others). -/
theorem passSource_load_merge_precedence
    (url : String → Option String) (env : Env) (w : World)
    (options : ResolveConfigOptions) (r : ConfigLoadResult)
    (hr : (load url env w options).1 = some r) (f : CField) :
    getField r.config f =
      jsOr
        (jsOr
          (jsOr (fieldOf (baseCfg env w) f) (fieldOf (hostCfg env w options) f))
          (fieldOf (mrtCfg url env w options) f))
        (fieldOf (instCfg env w options) f) := by
  rw [load_eq] at hr
  simp only at hr
  split at hr
  · split at hr
    · exact absurd hr (by simp)
    · obtain rfl := Option.some.inj hr
      exact getField_mergedCfg url env w options f
  · exact absurd hr (by simp)

/-- Concrete witness data: an environment with no variables set. -/
def env0 : Env := fun _ => none

/-- Concrete witness data: a URL parser that rejects everything. -/
def url0 : String → Option String := fun _ => none

/-- Concrete witness data: default options. -/
def opts0 : ResolveConfigOptions := {}

/-- Concrete witness data: `pass` is installed and only
`b2c-cli/_default` exists, holding a single password line. -/
def w0 : World := fun c =>
  if c = "which pass" then ExecResult.success "/usr/bin/pass"
  else if c = passShowCmd "b2c-cli/_default" then ExecResult.success "pw"
  else ExecResult.failure

theorem passSource_load_merge_precedence_witness :
    getField
        (ConfigLoadResult.config
          { config := { password := some "pw" },
            location := "pass:b2c-cli/_default" })
        CField.password =
      jsOr
        (jsOr
          (jsOr (fieldOf (baseCfg env0 w0) CField.password)
            (fieldOf (hostCfg env0 w0 opts0) CField.password))
          (fieldOf (mrtCfg url0 env0 w0 opts0) CField.password))
        (fieldOf (instCfg env0 w0 opts0) CField.password) :=
  passSource_load_merge_precedence url0 env0 w0 opts0
    { config := { password := some "pw" }, location := "pass:b2c-cli/_default" }
    (by decide) CField.password

/-! ## Claims C4 and C3 -/

lemma mem_foundOpt {q p : String} {c : Option NormalizedConfig}
    (hq : q ∈ foundOpt c p) : q = p ∧ c.isSome := by
  rcases c <;> simp [foundOpt] at hq ⊢
  exact hq

lemma mem_foundPaths (url : String → Option String) (env : Env) (w : World)
    (options : ResolveConfigOptions) (q : String)
    (hq : q ∈ foundPaths url env w options) : (entryCfg w q).isSome := by
  unfold foundPaths hostFound instFound mrtFound baseCfg at hq
  simp only [List.mem_append] at hq
  rcases hq with ((hq | hq) | hq) | hq
  · obtain ⟨rfl, hs⟩ := mem_foundOpt hq
    exact hs
  · rcases ht : truthy options.accountManagerHost with _ | h <;>
      simp only [ht] at hq
    · simp at hq
    · obtain ⟨rfl, hs⟩ := mem_foundOpt hq
      exact hs
  · rcases ht : truthy (options.instanceName <|> env "SFCC_PASS_INSTANCE")
      with _ | i <;> simp only [ht] at hq
    · simp at hq
    · obtain ⟨rfl, hs⟩ := mem_foundOpt hq
      exact hs
  · rcases ht : truthy options.cloudOrigin with _ | origin <;>
      simp only [ht] at hq
    · obtain ⟨rfl, hs⟩ := mem_foundOpt hq
      exact hs
    · rcases hu : url origin with _ | h <;> simp only [hu] at hq
      · obtain ⟨rfl, hs⟩ := mem_foundOpt hq
        exact hs
      · rcases hh : entryCfg w (mobifyHostPathOf env h) with _ | c <;>
          simp only [hh] at hq
        · obtain ⟨rfl, hs⟩ := mem_foundOpt hq
          exact hs
        · simp only [List.mem_singleton] at hq
          subst hq
          simp [hh]

/-- **C4.** `PassSource.load(options)` returns `undefined` iff the pass
tool is unavailable or none of the probed entries was found; when it
returns a result, the location string is the comma-joined list of exactly
the (`pass:`-tagged) paths of the entries that were found, in probe
order. -/
theorem load_undefined_iff_and_location (url : String → Option String)
    (env : Env) (w : World) (options : ResolveConfigOptions) :
    ((load url env w options).1 = none ↔
      isPassAvailable w = false ∨ foundPaths url env w options = []) ∧
    (∀ r, (load url env w options).1 = some r →
      r.location =
        String.intercalate ","
          ((foundPaths url env w options).map (fun p => "pass:" ++ p))) := by
  rw [load_eq]
  simp only
  constructor
  · by_cases hav : isPassAvailable w <;>
      by_cases hfp : foundPaths url env w options = [] <;>
      simp [hav, hfp]
  · intro r hr
    by_cases hav : isPassAvailable w <;>
      by_cases hfp : foundPaths url env w options = [] <;>
      simp [hav, hfp] at hr
    obtain rfl := hr.symm
    simp [tagParts]

theorem load_undefined_iff_and_location_witness :
    (("pass:b2c-cli/_default" : String) =
      String.intercalate ","
        ((foundPaths url0 env0 w0 opts0).map (fun p => "pass:" ++ p))) ∧
    ¬((load url0 env0 w0 opts0).1 = none) :=
  ⟨(load_undefined_iff_and_location url0 env0 w0 opts0).2
      { config := { password := some "pw" },
        location := "pass:b2c-cli/_default" }
      (by decide),
    fun hnone => by
      have h := ((load_undefined_iff_and_location url0 env0 w0 opts0).1).mp hnone
      revert h
      decide⟩

/-- **C3.** A failing `pass show` (entry not found) is treated as the
entry being absent and nothing else: `getEntry` returns `undefined`
instead of raising, `loadEntry` contributes neither config fields nor a
location part, the failing path never appears among the found entries,
and `load` still returns the merge of whatever other entries were found
(in the embedding `load` is a total function, so a missing entry never
makes it throw). -/
theorem missing_entry_treated_absent (url : String → Option String)
    (env : Env) (w : World) (options : ResolveConfigOptions) (p : String)
    (hp : w (passShowCmd p) = ExecResult.failure) :
    getEntry w p = none ∧
    (∀ parts, loadEntry w p parts = (none, parts, [passShowCmd p])) ∧
    p ∉ foundPaths url env w options ∧
    (load url env w options).1 =
      (if isPassAvailable w then
         if foundPaths url env w options = [] then none
         else
           some
             { config := mergedCfg url env w options,
               location :=
                 String.intercalate ","
                   (tagParts (foundPaths url env w options)) }
       else none) := by
  have hge : getEntry w p = none := by
    unfold getEntry
    rw [hp]
  have hcfg : entryCfg w p = none := by
    unfold entryCfg getConfigFromPass
    rw [hge]
    rfl
  refine ⟨hge, ?_, ?_, ?_⟩
  · intro parts
    rw [loadEntry_eq, hcfg]
    simp [foundOpt, tagParts]
  · intro hmem
    have hs := mem_foundPaths url env w options p hmem
    rw [hcfg] at hs
    simp at hs
  · rw [load_eq]

theorem missing_entry_treated_absent_witness :
    getEntry w0 "b2c-cli/absent" = none ∧
    loadEntry w0 "b2c-cli/absent" [] =
      (none, [], [passShowCmd "b2c-cli/absent"]) ∧
    "b2c-cli/absent" ∉ foundPaths url0 env0 w0 opts0 ∧
    (load url0 env0 w0 opts0).1 =
      (if isPassAvailable w0 then
         if foundPaths url0 env0 w0 opts0 = [] then none
         else
           some
             { config := mergedCfg url0 env0 w0 opts0,
               location :=
                 String.intercalate ","
                   (tagParts (foundPaths url0 env0 w0 opts0)) }
       else none) :=
  have h := missing_entry_treated_absent url0 env0 w0 opts0 "b2c-cli/absent"
    (by decide)
  ⟨h.1, h.2.1 [], h.2.2.1, h.2.2.2⟩

/-! ## Claim C5 -/

/-- **C5.** When `options.cloudOrigin` is truthy and parses as a URL,
`loadMrtConfig` tries the cloud-origin-specific entry
`_mobify/<hostname>` first and uses it when it exists (the base `_mobify`
entry is then not even probed); the base entry is consulted only when the
host-specific one is absent.  When `cloudOrigin` is absent or does not
parse, only the base `_mobify` entry is consulted, and no error is raised
(the `catch` turns the URL failure into the fallback). -/
theorem loadMrtConfig_cloud_origin_precedence (url : String → Option String)
    (env : Env) (w : World) (options : ResolveConfigOptions)
    (parts : List String) :
    (∀ origin h, truthy options.cloudOrigin = some origin →
      url origin = some h →
      (∀ c, entryCfg w (mobifyHostPathOf env h) = some c →
        loadMrtConfig url env w options parts =
          (some c, parts ++ ["pass:" ++ mobifyHostPathOf env h],
            [passShowCmd (mobifyHostPathOf env h)])) ∧
      (entryCfg w (mobifyHostPathOf env h) = none →
        loadMrtConfig url env w options parts =
          (entryCfg w (mobifyBasePathOf env),
            parts ++
              tagParts
                (foundOpt (entryCfg w (mobifyBasePathOf env))
                  (mobifyBasePathOf env)),
            [passShowCmd (mobifyHostPathOf env h),
              passShowCmd (mobifyBasePathOf env)]))) ∧
    (∀ origin, truthy options.cloudOrigin = some origin → url origin = none →
      loadMrtConfig url env w options parts =
        loadEntry w (mobifyBasePathOf env) parts) ∧
    (truthy options.cloudOrigin = none →
      loadMrtConfig url env w options parts =
        loadEntry w (mobifyBasePathOf env) parts) := by
  refine ⟨?_, ?_, ?_⟩
  · intro origin h hco hurl
    constructor
    · intro c hc
      unfold loadMrtConfig
      simp only [hco, hurl, loadEntry_eq, hc, foundOpt, tagParts, List.map]
    · intro hc
      unfold loadMrtConfig
      simp only [hco, hurl, loadEntry_eq, hc, foundOpt, tagParts_nil,
        List.append_nil, List.singleton_append]
  · intro origin hco hurl
    unfold loadMrtConfig
    simp only [hco, hurl]
  · intro hco
    unfold loadMrtConfig
    simp only [hco]

/-- Concrete witness data: options carrying a cloud origin. -/
def optsMrt : ResolveConfigOptions :=
  { cloudOrigin := some "https://runtime.commercecloud.com" }

/-- Concrete witness data: a URL parser recognizing that origin. -/
def urlMrt : String → Option String := fun s =>
  if s = "https://runtime.commercecloud.com" then
    some "runtime.commercecloud.com"
  else none

/-- Concrete witness data: only the host-specific `_mobify` entry
exists. -/
def wMrt : World := fun c =>
  if c = "which pass" then ExecResult.success "/usr/bin/pass"
  else if c = passShowCmd "b2c-cli/_mobify/runtime.commercecloud.com" then
    ExecResult.success "k\nmrt-api-key: k1"
  else ExecResult.failure

theorem loadMrtConfig_cloud_origin_precedence_witness :
    loadMrtConfig urlMrt env0 wMrt optsMrt [] =
      (some { password := some "k", mrtApiKey := some "k1" },
        [] ++
          ["pass:" ++ mobifyHostPathOf env0 "runtime.commercecloud.com"],
        [passShowCmd (mobifyHostPathOf env0 "runtime.commercecloud.com")]) :=
  (((loadMrtConfig_cloud_origin_precedence urlMrt env0 wMrt optsMrt []).1
      "https://runtime.commercecloud.com" "runtime.commercecloud.com"
      (by decide) (by decide)).1
    { password := some "k", mrtApiKey := some "k1" } (by decide))

/-! ## Claim C6 -/

/-- **C6.** `PassSource.load` is deterministic and depends only on its
declared inputs: two runs with the same options, the same values of the
two environment variables `SFCC_PASS_PREFIX` and `SFCC_PASS_INSTANCE`,
and the same password-store contents return identical results (both the
config/location result and the commands issued).  In the embedding `load`
is a pure function of these inputs, so no call mutates state visible to a
later call. -/
theorem load_deterministic_noninterference (url : String → Option String)
    (env1 env2 : Env) (w1 w2 : World) (options : ResolveConfigOptions)
    (hpfx : env1 "SFCC_PASS_PREFIX" = env2 "SFCC_PASS_PREFIX")
    (hins : env1 "SFCC_PASS_INSTANCE" = env2 "SFCC_PASS_INSTANCE")
    (hw : ∀ c, w1 c = w2 c) :
    load url env1 w1 options = load url env2 w2 options := by
  have hw2 : w1 = w2 := funext hw
  subst hw2
  simp only [load, loadMrtConfig, loadEntry, basePathOf, hostPathOf,
    instPathOf, mobifyBasePathOf, mobifyHostPathOf, passPrefix, hpfx, hins]

theorem load_deterministic_noninterference_witness :
    load url0 env0 w0 opts0 = load url0 (fun v => env0 v) w0 opts0 :=
  load_deterministic_noninterference url0 env0 (fun v => env0 v) w0 w0 opts0
    rfl rfl (fun _ => rfl)

/-! ## Claim C7 -/

/-- **C7.** The plugin never modifies the password store: every external
command issued during a `load` call is either the availability check
`which pass` or a read-only `pass show '<escaped path>'`; no command
inserts, edits, or removes a store entry. -/
theorem load_commands_read_only (url : String → Option String) (env : Env)
    (w : World) (options : ResolveConfigOptions) (cmd : String)
    (hc : cmd ∈ (load url env w options).2) :
    cmd = "which pass" ∨ ∃ p, cmd = passShowCmd p := by
  rw [load_eq] at hc
  simp only at hc
  unfold loadTrace at hc
  by_cases hav : isPassAvailable w
  · rw [if_pos hav] at hc
    simp only [List.mem_cons, List.mem_append, List.mem_singleton,
      List.not_mem_nil, or_false] at hc
    rcases hc with rfl | ⟨⟨hc | hc⟩ | hc⟩ | hc
    · left
      rfl
    · right
      exact ⟨basePathOf env, hc⟩
    · right
      rcases ht : truthy options.accountManagerHost with _ | h <;>
        simp only [ht] at hc
      · simp at hc
      · simp only [List.mem_singleton] at hc
        exact ⟨hostPathOf env h, hc⟩
    · right
      rcases ht : truthy (options.instanceName <|> env "SFCC_PASS_INSTANCE")
        with _ | i <;> simp only [ht] at hc
      · simp at hc
      · simp only [List.mem_singleton] at hc
        exact ⟨instPathOf env i, hc⟩
    · right
      unfold mrtTrace at hc
      rcases ht : truthy options.cloudOrigin with _ | origin <;>
        simp only [ht] at hc
      · simp only [List.mem_singleton] at hc
        exact ⟨mobifyBasePathOf env, hc⟩
      · rcases hu : url origin with _ | h <;> simp only [hu] at hc
        · simp only [List.mem_singleton] at hc
          exact ⟨mobifyBasePathOf env, hc⟩
        · simp only [List.mem_cons] at hc
          rcases hc with rfl | hc
          · exact ⟨mobifyHostPathOf env h, rfl⟩
          · rcases hh : entryCfg w (mobifyHostPathOf env h) with _ | c <;>
              simp only [hh] at hc
            · simp only [List.mem_singleton] at hc
              exact ⟨mobifyBasePathOf env, hc⟩
            · simp at hc
  · rw [if_neg hav] at hc
    simp only [List.mem_singleton] at hc
    left
    exact hc

theorem load_commands_read_only_witness :
    ("which pass" : String) = "which pass" ∨
      ∃ p, ("which pass" : String) = passShowCmd p :=
  load_commands_read_only url0 env0 w0 opts0 "which pass" (by decide)

/-! ## Claim C9 -/

lemma whichPass_ne_passShowCmd (p : String) :
    ("which pass" : String) ≠ passShowCmd p := by
  intro h
  have hl := congrArg String.length h
  unfold passShowCmd at hl
  rw [String.length_append, String.length_append] at hl
  have h10 : ("which pass" : String).length = 10 := by decide
  have h11 : ("pass show '" : String).length = 11 := by decide
  have h1 : ("'" : String).length = 1 := by decide
  rw [h10, h11, h1] at hl
  omega

lemma load_congr (url : String → Option String) (env : Env)
    (w1 w2 : World) (options : ResolveConfigOptions)
    (hav : isPassAvailable w1 = isPassAvailable w2)
    (hg : ∀ q, getConfigFromPass w1 q = getConfigFromPass w2 q) :
    load url env w1 options = load url env w2 options := by
  have hle : ∀ q parts, loadEntry w1 q parts = loadEntry w2 q parts := by
    intro q parts
    unfold loadEntry
    rw [hg q]
  simp only [load, loadMrtConfig, hle, hav]

/-- **C9.** An entry that exists with empty content is indistinguishable
from a missing entry: `getConfigFromPass` returns `undefined` (not an
empty record), `loadEntry` contributes neither config fields nor a
location part, and the whole `load` result is the same as if the entry's
`pass show` had failed. -/
theorem empty_entry_indistinguishable (url : String → Option String)
    (env : Env) (w : World) (options : ResolveConfigOptions) (p : String)
    (hp : w (passShowCmd p) = ExecResult.success "") :
    getConfigFromPass w p = none ∧
    (∀ parts, loadEntry w p parts = (none, parts, [passShowCmd p])) ∧
    load url env w options =
      load url env
        (fun c => if c = passShowCmd p then ExecResult.failure else w c)
        options := by
  have hg : getConfigFromPass w p = none := by
    unfold getConfigFromPass getEntry
    rw [hp]
    simp
  have hcfg : entryCfg w p = none := by
    unfold entryCfg
    rw [hg]
    rfl
  refine ⟨hg, ?_, ?_⟩
  · intro parts
    rw [loadEntry_eq, hcfg]
    simp [foundOpt, tagParts]
  · apply load_congr
    · unfold isPassAvailable
      simp only [whichPass_ne_passShowCmd p, if_neg, if_false]
    · intro q
      by_cases hq : passShowCmd q = passShowCmd p
      · unfold getConfigFromPass getEntry
        rw [hq, hp]
        simp
      · unfold getConfigFromPass getEntry
        simp only [hq, if_false, ite_false]

/-- Concrete witness data: `b2c-cli/staging` exists with empty
content. -/
def wEmpty : World := fun c =>
  if c = "which pass" then ExecResult.success "/usr/bin/pass"
  else if c = passShowCmd "b2c-cli/staging" then ExecResult.success ""
  else ExecResult.failure

theorem empty_entry_indistinguishable_witness :
    getConfigFromPass wEmpty "b2c-cli/staging" = none ∧
    loadEntry wEmpty "b2c-cli/staging" [] =
      (none, [], [passShowCmd "b2c-cli/staging"]) ∧
    load url0 env0 wEmpty opts0 =
      load url0 env0
        (fun c =>
          if c = passShowCmd "b2c-cli/staging" then ExecResult.failure
          else wEmpty c)
        opts0 :=
  have h := empty_entry_indistinguishable url0 env0 wEmpty opts0
    "b2c-cli/staging" (by decide)
  ⟨h.1, h.2.1 [], h.2.2⟩

/-! ## Claim C10 -/

/-- Per-character effect of `escapeShellArg`: the single quote becomes
the four characters `'\''`, everything else is untouched. -/
def escChar (c : Char) : List Char :=
  if c = '\'' then ['\'', '\\', '\'', '\''] else [c]

/-- Modelled from the spec's reading of the escaped argument between
shell single quotes: inside single quotes every character is literal, and
the four-character sequence `'\''` (close quote, escaped literal quote,
reopen quote) denotes one single-quote character. -/
def shellUnquote : List Char → List Char
  | [] => []
  | '\'' :: '\\' :: '\'' :: '\'' :: rest => '\'' :: shellUnquote rest
  | c :: rest => c :: shellUnquote rest

/-- String-level un-escaping. -/
def unescapeShellArg (s : String) : String :=
  String.mk (shellUnquote s.toList)

lemma shellUnquote_escape (l : List Char) :
    shellUnquote (l.flatMap escChar) = l := by
  induction l with
  | nil => simp [shellUnquote]
  | cons c cs ih =>
    by_cases hc : c = '\''
    · subst hc
      simp only [List.flatMap_cons, escChar, if_pos rfl, List.cons_append,
        List.nil_append]
      simp [shellUnquote, ih]
    · simp only [List.flatMap_cons, escChar, if_neg hc, List.cons_append,
        List.nil_append, List.singleton_append]
      simp [shellUnquote, hc, ih]

lemma escape_id_of_no_quote (l : List Char) (h : ∀ c ∈ l, c ≠ '\'') :
    l.flatMap escChar = l := by
  induction l with
  | nil => rfl
  | cons c cs ih =>
    rw [List.flatMap_cons, escChar, if_neg (h c (List.mem_cons_self c cs))]
    rw [ih fun d hd => h d (List.mem_cons_of_mem c hd)]
    rfl

/-- **C10.** `escapeShellArg` replaces every single-quote character with
the sequence `'\''` and leaves all other characters unchanged;
consequently it is the identity on strings without a single quote,
un-escaping (the shell's interpretation of the result inside single
quotes) recovers the original path for every input, and the function is
injective. -/
theorem escapeShellArg_spec (s t : String) :
    (escapeShellArg s).toList = s.toList.flatMap escChar ∧
    ((∀ c ∈ s.toList, c ≠ '\'') → escapeShellArg s = s) ∧
    unescapeShellArg (escapeShellArg s) = s ∧
    (escapeShellArg s = escapeShellArg t → s = t) := by
  obtain ⟨l⟩ := s
  obtain ⟨m⟩ := t
  refine ⟨rfl, ?_, ?_, ?_⟩
  · intro h
    show String.mk (l.flatMap escChar) = String.mk l
    rw [escape_id_of_no_quote l h]
  · show String.mk (shellUnquote (l.flatMap escChar)) = String.mk l
    rw [shellUnquote_escape]
  · intro h
    have hd : l.flatMap escChar = m.flatMap escChar :=
      congrArg String.toList h
    have hlm := congrArg shellUnquote hd
    rw [shellUnquote_escape, shellUnquote_escape] at hlm
    exact congrArg String.mk hlm

theorem escapeShellArg_spec_witness :
    escapeShellArg "ab" = "ab" ∧
    unescapeShellArg (escapeShellArg "a'b") = "a'b" ∧
    ("a'b" : String) = "a'b" :=
  have h1 := escapeShellArg_spec "ab" "ab"
  have h2 := escapeShellArg_spec "a'b" "a'b"
  ⟨h1.2.1 (by decide), h2.2.2.1, h2.2.2.2 rfl⟩

/-! ## Claims C2 and C8: the two copies of `parsePassEntry` -/

/-- **C2.** Evaluation of both copies of `parsePassEntry` at the
repository README's documented "Global OAuth" entry (empty first line,
then `client-id` / `client-secret` pairs).  The copy in
`src/sources/pass.ts` — the one `PassSource` imports — promotes the first
**non-empty** line to `_password`, so the `client-id` line is swallowed
as the password and `clientId` is never populated; the unnamed copy (and
the README, and the claim) keep the empty first line as "no password" and
parse the pair.  This shows the live code contradicting the repository's
own documentation at this input. -/
theorem parsePassEntry_blank_first_line_divergence :
    parsePassEntry "\nclient-id: my-client-id\nclient-secret: my-secret" =
      [("_password", "client-id: my-client-id"),
        ("client-secret", "my-secret")] ∧
    parsePassEntryAlt "\nclient-id: my-client-id\nclient-secret: my-secret" =
      [("client-id", "my-client-id"), ("client-secret", "my-secret")] ∧
    (mapToNormalizedConfig
        (parsePassEntry
          "\nclient-id: my-client-id\nclient-secret: my-secret")).clientId =
      none ∧
    (mapToNormalizedConfig
        (parsePassEntryAlt
          "\nclient-id: my-client-id\nclient-secret: my-secret")).clientId =
      some "my-client-id" := by
  refine ⟨by decide, by decide, by decide, by decide⟩

/-- **C8 (counterexample).** The two copies of `parsePassEntry` are not
extensionally equal: on an input whose first line is empty and whose
second line is a `key: value` pair they return different records. -/
theorem parsePassEntry_copies_disagree :
    parsePassEntry "\nfoo: bar" ≠ parsePassEntryAlt "\nfoo: bar" := by
  decide

lemma parsePassLoop_true_foldl (lines : List String) (acc : Obj) :
    parsePassLoop lines true acc = lines.foldl parsePassAltStep acc := by
  induction lines generalizing acc with
  | nil => rfl
  | cons line rest ih =>
    show parsePassLoop (line :: rest) true acc = _
    rw [List.foldl_cons]
    by_cases ht : jsTrim line = ""
    · have hkv : parseKVLine (jsTrim line) = none := by
        rw [ht]
        rfl
      simp only [parsePassLoop, Bool.not_true, Bool.false_eq_true, if_false,
        hkv, parsePassAltStep, ht, if_pos rfl]
      exact ih acc
    · rcases hkv : parseKVLine (jsTrim line) with _ | kv <;>
        simp only [parsePassLoop, Bool.not_true, Bool.false_eq_true, if_false,
          hkv, parsePassAltStep, ht, if_neg ht, ite_false] <;>
        apply ih

/-- **C8 (amended).** The two copies of `parsePassEntry` agree on every
input whose first line is non-empty after trimming; they differ in
general only on inputs whose first line is blank (where the copy in
`src/sources/pass.ts` promotes the first non-blank line to `_password`
while the unnamed copy key-value-parses it). -/
theorem parsePassEntry_copies_agree_nonblank_first (s first : String)
    (rest : List String) (hs : jsSplitLines s = first :: rest)
    (hne : jsTrim first ≠ "") :
    parsePassEntry s = parsePassEntryAlt s := by
  unfold parsePassEntry parsePassEntryAlt
  rw [hs]
  simp only [parsePassLoop, Bool.not_false, if_pos rfl, hne, ite_true,
    List.drop_one, List.tail_cons, if_neg hne]
  rw [parsePassLoop_true_foldl]
  simp [hne]

theorem parsePassEntry_copies_agree_nonblank_first_witness :
    parsePassEntry "pw\nusername: u" = parsePassEntryAlt "pw\nusername: u" :=
  parsePassEntry_copies_agree_nonblank_first "pw\nusername: u" "pw"
    ["username: u"] (by decide) (by decide)
